import Mathlib

/-!
Verification of the SoundboardApp playback and mixing pipeline.

The development shallowly embeds the playback state and the pure
state transformations of `soundboard/sound_player.py`,
`soundboard/audio_player.py` and `soundboard/audio_router.py`:

* `PlayerState` models the playback fields `_is_playing`,
  `_current_sound`, `_current_sound_data`, `_current_sound_pos`
  shared by `SoundPlayer` and `AudioPlayer` (the player holds a
  single current-sound slot, not a multi-instance set).
* `play_sound` models `SoundPlayer.play_sound` (catalog lookup,
  file check, pre-stop of an in-flight sound, thread spawn decision).
* `startPlayback` models the state install done by
  `SoundPlayer._play_sound_thread` once decoding succeeded.
* `get_next_audio_chunk` models `SoundPlayer.get_next_audio_chunk`.
* `mix_audio_with_sounds` models `AudioPlayer._mix_audio_with_sounds`
  (audio_player.py lines 386-421); `AudioRouter._mix_audio_with_sounds`
  (audio_router.py lines 89-128) is line-for-line the same logic except
  that it reads the nonexistent attributes `sound_player.current_sound_data`
  and `sound_player.current_sound_pos`, so with `SoundPlayer` as written
  its mixing branch always raises AttributeError and the handler returns
  the input block; the lookup-failure path of the embedding covers that
  exception-to-passthrough behaviour.
* `gainFactor` models the pydub gain applied by
  `SoundPlayer._load_and_process_audio`: `audio + (volume/100 - 1) * 20`
  adds decibels, multiplying every sample by `10 ^ ((volume/100 - 1))`.

Machine integers are modelled as `Int` (PCM samples are int16 values),
the float arithmetic of the mixer as exact rationals, and the
transcendental decibel conversion as a real number.
-/

namespace Soundboard

/-- Playback state fields of `SoundPlayer` / `AudioPlayer`:
`_is_playing`, `_current_sound`, `_current_sound_data` (decoded int16
PCM samples) and `_current_sound_pos` (read cursor in frames). -/
structure PlayerState where
  is_playing : Bool
  current_sound : Option String
  current_sound_data : Option (List Int)
  current_sound_pos : Nat
deriving DecidableEq, Repr

/-- Initial playback state of a freshly constructed player. -/
def initState : PlayerState :=
  { is_playing := false, current_sound := none,
    current_sound_data := none, current_sound_pos := 0 }

/-- Models `SoundPlayer._cleanup_playback`: resets all four playback fields. -/
def cleanup_playback (_s : PlayerState) : PlayerState := initState

/-- Models `SoundPlayer.stop_playback`: cleans up only when a sound is playing. -/
def stop_playback (s : PlayerState) : PlayerState :=
  if s.is_playing then cleanup_playback s else s

/-- How many playback instances the state holds: the single
current-sound slot is occupied exactly when `_is_playing` is set and
`_current_sound_data` is present. -/
def activeCount (s : PlayerState) : Nat :=
  if s.is_playing = true ∧ s.current_sound_data ≠ none then 1 else 0

/-- Catalog entry as returned by `Config.get_sound`: an optional
`path` field and an optional `volume` field (percent). -/
structure SoundEntry where
  path : Option String
  volume : Option Int
deriving DecidableEq, Repr

/-- Models the caller-context part of `SoundPlayer.play_sound`
(sound_player.py lines 32-54): if a sound is playing it is stopped
first; then the catalog is consulted and the backing file checked.
The returned Bool tells whether a playback thread was spawned; the
`false` outcomes correspond to the logged-and-returned error paths
(no exception is raised on any path). -/
def play_sound (get_sound : String → Option SoundEntry)
    (file_exists : String → Bool) (s : PlayerState) (name : String) :
    PlayerState × Bool :=
  let s1 := if s.is_playing then stop_playback s else s
  match get_sound name with
  | none => (s1, false)
  | some entry =>
    match entry.path with
    | none => (s1, false)
    | some p => if p = "" ∨ file_exists p = false then (s1, false) else (s1, true)

/-- Models the state install performed by `SoundPlayer._play_sound_thread`
(sound_player.py lines 63-66) once decoding succeeded: the decoded
buffer goes into the single slot, the cursor resets to 0, and the
playing flag is set. -/
def startPlayback (s : PlayerState) (name : String) (data : List Int) : PlayerState :=
  { s with current_sound_data := some data, current_sound_pos := 0,
           current_sound := some name, is_playing := true }

/-- Chunk extraction shared verbatim by `SoundPlayer.get_next_audio_chunk`
(sound_player.py lines 138-145) and `AudioPlayer._mix_audio_with_sounds`
(audio_player.py lines 401-408): slice up to `n` frames starting at
`pos` and zero-pad the tail when fewer remain. -/
def paddedChunk (d : List Int) (pos n : Nat) : List Int :=
  let end_pos := min (pos + n) d.length
  let raw := (d.drop pos).take (end_pos - pos)
  if raw.length < n then raw ++ List.replicate (n - raw.length) 0 else raw

/-- Models `SoundPlayer.get_next_audio_chunk` (sound_player.py lines
130-147): returns the next chunk of `chunk_size` frames, or `none`
when nothing is playing, no data is loaded, or the cursor already
reached the end of the buffer (in which case the state is cleaned). -/
def get_next_audio_chunk (s : PlayerState) (chunk_size : Nat) :
    Option (List Int) × PlayerState :=
  if s.is_playing = false ∨ s.current_sound_data = none then (none, s)
  else
    match s.current_sound_data with
    | none => (none, s)
    | some d =>
      if d.length ≤ s.current_sound_pos then (none, cleanup_playback s)
      else
        let end_pos := min (s.current_sound_pos + chunk_size) d.length
        (some (paddedChunk d s.current_sound_pos chunk_size),
         { s with current_sound_pos := end_pos })

/-- Iterated consumption: the player state after `k` successive calls
of `get_next_audio_chunk` with block size `n`. -/
def consumeIter (n : Nat) : PlayerState → Nat → PlayerState
  | s, 0 => s
  | s, k + 1 => consumeIter n (get_next_audio_chunk s n).2 k

/-- Models `np.clip(x, -32768, 32767)` on one sample. -/
def clip (q : ℚ) : ℚ := max (-32768) (min q 32767)

/-- Models `astype(np.int16)` applied to an already clipped float:
C-style truncation toward zero. -/
def toInt16Trunc (q : ℚ) : Int := if 0 ≤ q then ⌊q⌋ else ⌈q⌉

/-- Fixed input gain of the mixer (`input_gain = 0.6`). -/
def input_gain : ℚ := 6 / 10

/-- Clip-contribution gain of the mixer (`soundboard_gain = 3.0 * volume`
with `volume` the per-sound percentage divided by 100). -/
def soundboard_gain (volume : ℚ) : ℚ := 3 * (volume / 100)

/-- One mixed output sample (audio_player.py lines 414-415):
truncate-to-int16 of the clipped weighted sum of the input sample `x`
and the clip sample `y`. -/
def mixSample (volume : ℚ) (x y : Int) : Int :=
  toInt16Trunc (clip (input_gain * x + soundboard_gain volume * y))

/-- Elementwise mix of an input block with a clip chunk of equal length. -/
def mixBlock (volume : ℚ) (input chunk : List Int) : List Int :=
  List.zipWith (mixSample volume) input chunk

/-- Models `AudioPlayer._mix_audio_with_sounds` (audio_player.py lines
386-421). `get_volume` models the
`config.get_sound(self._current_sound).get("volume", default)` lookup,
returning the volume percentage (the division by 100 performed at
audio_player.py line 410 is folded into `soundboard_gain`); its `none`
result models the AttributeError raised when the catalog has no entry
for the current sound (or the current sound is `None`), which the
surrounding handler turns into returning the input block unchanged.
Note the cursor advance happens before the lookup, so it persists on
the exception path, exactly as in the source. -/
def mix_audio_with_sounds (get_volume : Option String → Option ℚ)
    (s : PlayerState) (input : List Int) : List Int × PlayerState :=
  if s.is_playing = false ∨ s.current_sound_data = none then (input, s)
  else
    match s.current_sound_data with
    | none => (input, s)
    | some d =>
      if d.length ≤ s.current_sound_pos then (input, cleanup_playback s)
      else
        let chunk_size := input.length
        let end_pos := min (s.current_sound_pos + chunk_size) d.length
        let chunk := paddedChunk d s.current_sound_pos chunk_size
        let s1 := { s with current_sound_pos := end_pos }
        match get_volume s.current_sound with
        | none => (input, s1)
        | some v => (mixBlock v input chunk, s1)

/-- Models the pydub gain of `SoundPlayer._load_and_process_audio`
(sound_player.py lines 94-96): `volume_adjustment = volume/100 - 1`
is applied as `audio + volume_adjustment * 20`, i.e. a gain of
`20 * (volume/100 - 1)` decibels, which multiplies every sample by
`10 ^ (volume/100 - 1)`; when `|volume/100 - 1| ≤ 0.01` no gain is
applied at all. -/
noncomputable def gainFactor (volume : ℚ) : ℝ :=
  if 1 / 100 < |volume / 100 - 1| then
    (10 : ℝ) ^ (((volume : ℝ) / 100 - 1)) else 1

/-- Value of a decoded sample before int16 conversion: the source
sample scaled by the decibel-derived gain factor. -/
noncomputable def decodedSample (volume : ℚ) (x : Int) : ℝ :=
  (x : ℝ) * gainFactor volume

end Soundboard

namespace Soundboard

/-! Branch equations for the embedded operations. -/

theorem get_next_audio_chunk_idle (s : PlayerState) (n : Nat)
    (h : s.is_playing = false ∨ s.current_sound_data = none) :
    get_next_audio_chunk s n = (none, s) := by
  unfold get_next_audio_chunk
  rw [if_pos h]

theorem get_next_audio_chunk_finished (s : PlayerState) (n : Nat) (d : List Int)
    (hp : s.is_playing = true) (hd : s.current_sound_data = some d)
    (hdone : d.length ≤ s.current_sound_pos) :
    get_next_audio_chunk s n = (none, initState) := by
  unfold get_next_audio_chunk
  rw [if_neg (by simp [hp, hd])]
  simp [hd, hdone, cleanup_playback]

theorem get_next_audio_chunk_run (s : PlayerState) (n : Nat) (d : List Int)
    (hp : s.is_playing = true) (hd : s.current_sound_data = some d)
    (hlt : s.current_sound_pos < d.length) :
    get_next_audio_chunk s n =
      (some (paddedChunk d s.current_sound_pos n),
       { s with current_sound_pos := min (s.current_sound_pos + n) d.length }) := by
  unfold get_next_audio_chunk
  rw [if_neg (by simp [hp, hd])]
  simp [hd, Nat.not_le.mpr hlt]

theorem paddedChunk_length (d : List Int) (pos n : Nat) (h : pos < d.length) :
    (paddedChunk d pos n).length = n := by
  simp only [paddedChunk]
  split <;>
    simp_all [List.length_append, List.length_replicate, List.length_take,
      List.length_drop] <;> omega

theorem paddedChunk_pad (d : List Int) (pos n : Nat) (hlt : pos < d.length)
    (hrem : d.length - pos < n) :
    paddedChunk d pos n = d.drop pos ++ List.replicate (n - (d.length - pos)) 0 := by
  have h1 : min (pos + n) d.length = d.length := by omega
  have h2 : (d.drop pos).take (d.length - pos) = d.drop pos := by
    apply List.take_of_length_le
    simp [List.length_drop]
  simp only [paddedChunk, h1, h2]
  rw [if_pos (by simp [List.length_drop]; omega)]
  simp [List.length_drop]

theorem get_next_audio_chunk_initState (n : Nat) :
    get_next_audio_chunk initState n = (none, initState) :=
  get_next_audio_chunk_idle initState n (Or.inl rfl)

theorem consumeIter_initState (n k : Nat) : consumeIter n initState k = initState := by
  induction k with
  | zero => rfl
  | succ k ih => simp [consumeIter, get_next_audio_chunk_initState, ih]

theorem consumeIter_fixed (n : Nat) (s : PlayerState)
    (h : (get_next_audio_chunk s n).2 = s) (k : Nat) : consumeIter n s k = s := by
  induction k with
  | zero => rfl
  | succ k ih => simp [consumeIter, h, ih]

end Soundboard

namespace Soundboard

theorem mix_audio_with_sounds_idle (gv : Option String → Option ℚ)
    (s : PlayerState) (input : List Int)
    (h : s.is_playing = false ∨ s.current_sound_data = none) :
    mix_audio_with_sounds gv s input = (input, s) := by
  unfold mix_audio_with_sounds
  rw [if_pos h]

theorem mix_audio_with_sounds_finished (gv : Option String → Option ℚ)
    (s : PlayerState) (input : List Int) (d : List Int)
    (hp : s.is_playing = true) (hd : s.current_sound_data = some d)
    (hdone : d.length ≤ s.current_sound_pos) :
    mix_audio_with_sounds gv s input = (input, initState) := by
  unfold mix_audio_with_sounds
  rw [if_neg (by simp [hp, hd])]
  simp [hd, hdone, cleanup_playback]

theorem mix_audio_with_sounds_lookup_failed (gv : Option String → Option ℚ)
    (s : PlayerState) (input : List Int) (d : List Int)
    (hp : s.is_playing = true) (hd : s.current_sound_data = some d)
    (hlt : s.current_sound_pos < d.length) (hv : gv s.current_sound = none) :
    mix_audio_with_sounds gv s input =
      (input,
       { s with current_sound_pos := min (s.current_sound_pos + input.length) d.length }) := by
  unfold mix_audio_with_sounds
  rw [if_neg (by simp [hp, hd])]
  simp [hd, Nat.not_le.mpr hlt, hv]

theorem mix_audio_with_sounds_run (gv : Option String → Option ℚ)
    (s : PlayerState) (input : List Int) (d : List Int) (v : ℚ)
    (hp : s.is_playing = true) (hd : s.current_sound_data = some d)
    (hlt : s.current_sound_pos < d.length) (hv : gv s.current_sound = some v) :
    mix_audio_with_sounds gv s input =
      (mixBlock v input (paddedChunk d s.current_sound_pos input.length),
       { s with current_sound_pos := min (s.current_sound_pos + input.length) d.length }) := by
  unfold mix_audio_with_sounds
  rw [if_neg (by simp [hp, hd])]
  simp [hd, Nat.not_le.mpr hlt, hv]

theorem clip_le (q : ℚ) : clip q ≤ 32767 :=
  max_le (by norm_num) (min_le_right q 32767)

theorem clip_ge (q : ℚ) : -32768 ≤ clip q := le_max_left _ _

theorem toInt16Trunc_range (q : ℚ) (h1 : -32768 ≤ q) (h2 : q ≤ 32767) :
    -32768 ≤ toInt16Trunc q ∧ toInt16Trunc q ≤ 32767 := by
  unfold toInt16Trunc
  split
  · constructor
    · have : (0 : Int) ≤ ⌊q⌋ := Int.floor_nonneg.mpr (by assumption)
      omega
    · have : ⌊q⌋ ≤ ⌊(32767 : ℚ)⌋ := Int.floor_le_floor h2
      simpa using this
  · constructor
    · have : ⌈(-32768 : ℚ)⌉ ≤ ⌈q⌉ := Int.ceil_le_ceil h1
      simpa [Int.ceil_neg] using this
    · have h0 : q ≤ 0 := le_of_not_le (by assumption)
      have : ⌈q⌉ ≤ ⌈(0 : ℚ)⌉ := Int.ceil_le_ceil h0
      simp at this
      omega

theorem mixSample_range (v : ℚ) (x y : Int) :
    -32768 ≤ mixSample v x y ∧ mixSample v x y ≤ 32767 := by
  unfold mixSample
  exact toInt16Trunc_range _ (clip_ge _) (clip_le _)

theorem mixBlock_mem {v : ℚ} {input chunk : List Int} {y : Int}
    (hy : y ∈ mixBlock v input chunk) : ∃ a b, y = mixSample v a b := by
  unfold mixBlock at hy
  induction input generalizing chunk with
  | nil => simp at hy
  | cons a as ih =>
    cases chunk with
    | nil => simp at hy
    | cons b bs =>
      simp only [List.zipWith] at hy
      rcases List.mem_cons.mp hy with h | h
      · exact ⟨a, b, h⟩
      · exact ih h

end Soundboard

namespace Soundboard

theorem gainFactor_fifty : gainFactor 50 = (10 : ℝ) ^ (-(2⁻¹) : ℝ) := by
  unfold gainFactor
  rw [if_pos (by
    rw [show ((50 : ℚ) / 100 - 1) = -(1 / 2) by norm_num, abs_neg,
      abs_of_nonneg (by norm_num : (0 : ℚ) ≤ 1 / 2)]
    norm_num)]
  norm_num

theorem gainFactor_fifty_sq : gainFactor 50 * gainFactor 50 = 1 / 10 := by
  rw [gainFactor_fifty, ← Real.rpow_add (by norm_num : (0 : ℝ) < 10)]
  rw [show (-(2⁻¹) + -(2⁻¹) : ℝ) = ((-1 : Int) : ℝ) by norm_num]
  rw [Real.rpow_intCast]
  norm_num

theorem gainFactor_fifty_pos : 0 < gainFactor 50 := by
  rw [gainFactor_fifty]
  exact Real.rpow_pos_of_pos (by norm_num) _

theorem gainFactor_fifty_bounds : 5 / 16 < gainFactor 50 ∧ gainFactor 50 < 1 / 3 := by
  have hsq := gainFactor_fifty_sq
  have hpos := gainFactor_fifty_pos
  constructor
  · nlinarith [hsq, hpos]
  · nlinarith [hsq, hpos]

theorem gainFactor_hundred : gainFactor 100 = 1 := by
  unfold gainFactor
  rw [if_neg (by norm_num)]

end Soundboard

namespace Soundboard

/-- Concrete playing state used by the concrete test theorems: sound
named A, decoded buffer `d`, cursor at `pos`. -/
def exState (d : List Int) (pos : Nat) : PlayerState :=
  { is_playing := true, current_sound := some "A",
    current_sound_data := some d, current_sound_pos := pos }

/-- C1 counterexample: decoding at volume 50 does not scale a full-scale
sample 32767 to 16384 plus or minus 1 (it is below 16383), and the decoded
value differs from the linear value 32767 times 50/100 claimed by the spec;
the code applies a decibel gain of 20 times (50/100 - 1) dB, i.e. a factor
10 to the power -1/2. -/
theorem C1_counterexample :
    decodedSample 50 32767 < 16383 ∧ decodedSample 50 32767 ≠ 32767 * (50 / 100 : ℝ) := by
  have hb := gainFactor_fifty_bounds
  unfold decodedSample
  push_cast
  constructor
  · nlinarith [hb.2]
  · have hlt : (32767 : ℝ) * gainFactor 50 < 32767 * (50 / 100) := by nlinarith [hb.2]
    exact ne_of_lt hlt

/-- C1 amended: the decoder scales each sample by `10 ^ (volume/100 - 1)`
(the pydub decibel gain `(volume/100 - 1) * 20` dB), applied only when
`|volume/100 - 1| > 0.01`; at volume 50 the factor is `10 ^ (-1/2)`
(whose square is 1/10), so a full-scale sample 32767 lands strictly
between 10239 and 10923, and at volume 100 the factor is 1. -/
theorem C1_theorem :
    gainFactor 50 = (10 : ℝ) ^ (-(2⁻¹) : ℝ) ∧
    gainFactor 50 * gainFactor 50 = 1 / 10 ∧
    10239 < decodedSample 50 32767 ∧ decodedSample 50 32767 < 10923 ∧
    gainFactor 100 = 1 := by
  refine ⟨gainFactor_fifty, gainFactor_fifty_sq, ?_, ?_, gainFactor_hundred⟩ <;>
    · unfold decodedSample
      push_cast
      nlinarith [gainFactor_fifty_bounds.1, gainFactor_fifty_bounds.2]

/-- C2 counterexample: trigger clip A (buffer [1,2,3,4]), consume one
block of 2 frames (cursor now 2), then trigger A again while it is
playing: `play_sound` first stops the in-flight instance (the state
passed to the new playback thread is the cleaned `initState`, cursor
progress 2 discarded), and the restarted state holds a single instance
with cursor 0 — two instances never coexist. -/
theorem C2_counterexample :
    (get_next_audio_chunk (startPlayback initState "A" [1, 2, 3, 4]) 2).2 =
      exState [1, 2, 3, 4] 2 ∧
    play_sound (fun n => if n = "A" then some ⟨some "a.mp3", some 80⟩ else none)
      (fun _ => true) (exState [1, 2, 3, 4] 2) "A" = (initState, true) ∧
    startPlayback initState "A" [1, 2, 3, 4] = exState [1, 2, 3, 4] 0 ∧
    activeCount (exState [1, 2, 3, 4] 0) = 1 := by
  decide

/-- C3 counterexample: a clip of exactly 1 frame consumed with block
size 1 returns a full chunk and leaves the instance in the active set
(`is_playing` true, data still loaded); the next `get_next_audio_chunk`
call then returns no contribution although the active set was not empty
at call start, refuting the "no contribution iff set empty" direction. -/
theorem C3_counterexample :
    get_next_audio_chunk (startPlayback initState "A" [5]) 1 = (some [5], exState [5] 1) ∧
    (exState [5] 1).is_playing = true ∧
    activeCount (exState [5] 1) = 1 ∧
    (get_next_audio_chunk (exState [5] 1) 1).1 = none := by
  decide

/-- C5 counterexample: a clip with 1 frame remaining consumed with block
size 2 yields the zero-padded chunk [7, 0], but the instance is not
removed from the active set after that call: the post-call state still
holds it (`is_playing` true, `activeCount` 1); removal happens lazily
on the next call. -/
theorem C5_counterexample :
    get_next_audio_chunk (startPlayback initState "A" [7]) 2 = (some [7, 0], exState [7] 1) ∧
    activeCount (exState [7] 1) = 1 ∧ (exState [7] 1).is_playing = true := by
  decide

/-- C8 counterexample: triggering an unknown name while a sound is
playing does not leave the active set unchanged: the pre-trigger stop
in `play_sound` clears the in-flight instance (active count drops from
1 to 0) even though the trigger itself fails and spawns nothing. -/
theorem C8_counterexample :
    play_sound (fun _ => none) (fun _ => false) (exState [1, 2] 1) "bogus" =
      (initState, false) ∧
    activeCount (exState [1, 2] 1) = 1 ∧ activeCount initState = 0 := by
  decide

end Soundboard

namespace Soundboard

/-- C2 amended: retriggering replaces rather than overlaps. The player
holds at most one Playback Instance (`activeCount` never exceeds 1);
`play_sound` on a playing state first stops the in-flight instance
(returning the cleaned state to the spawned thread), and the new
instance starts with cursor 0 as the only occupant of the slot. -/
theorem C2_theorem (gs : String → Option SoundEntry) (fe : String → Bool)
    (s : PlayerState) (name : String) (d : List Int) (h : s.is_playing = true) :
    activeCount s ≤ 1 ∧
    (play_sound gs fe s name).1 = initState ∧
    startPlayback (play_sound gs fe s name).1 name d =
      { is_playing := true, current_sound := some name,
        current_sound_data := some d, current_sound_pos := 0 } ∧
    activeCount (startPlayback (play_sound gs fe s name).1 name d) = 1 := by
  have hfst : (play_sound gs fe s name).1 = initState := by
    unfold play_sound stop_playback cleanup_playback
    rcases gs name with _ | e
    · simp [h]
    · rcases hep : e.path with _ | p
      · simp [h, hep]
      · by_cases hc : p = "" ∨ fe p = false
        · simp [h, hep, hc]
        · simp [h, hep, hc]
  refine ⟨?_, hfst, ?_, ?_⟩
  · unfold activeCount
    split <;> omega
  · rw [hfst]
    rfl
  · rw [hfst]
    simp [activeCount, startPlayback, initState]

/-- C2 witness: concrete instantiation of the replace-policy theorem at
a playing state with buffer [5] and a fresh trigger of name A with
buffer [7]. -/
theorem C2_witness :
    activeCount (exState [5] 0) ≤ 1 ∧
    (play_sound (fun _ => none) (fun _ => true) (exState [5] 0) "A").1 = initState ∧
    startPlayback (play_sound (fun _ => none) (fun _ => true) (exState [5] 0) "A").1
      "A" [7] =
      { is_playing := true, current_sound := some "A",
        current_sound_data := some [7], current_sound_pos := 0 } ∧
    activeCount
      (startPlayback (play_sound (fun _ => none) (fun _ => true) (exState [5] 0) "A").1
        "A" [7]) = 1 :=
  C2_theorem (fun _ => none) (fun _ => true) (exState [5] 0) "A" [7] rfl

/-- C3 amended: `get_next_audio_chunk` returns a buffer of exactly N
frames whenever it returns one, and returns no contribution iff, at
call start, nothing was playing, no buffer was loaded, or the sole
instance had already been fully consumed (cursor at or past the buffer
end) — a fully drained instance is pruned at the start of the next
call, not at the end of the call that drains it. -/
theorem C3_theorem (s : PlayerState) (n : Nat) :
    ((get_next_audio_chunk s n).1 = none ↔
      s.is_playing = false ∨ s.current_sound_data = none ∨
        ∃ d, s.current_sound_data = some d ∧ d.length ≤ s.current_sound_pos) ∧
    ∀ c, (get_next_audio_chunk s n).1 = some c → c.length = n := by
  rcases hd : s.current_sound_data with _ | d
  · rw [get_next_audio_chunk_idle s n (Or.inr hd)]
    simp [hd]
  · cases hp : s.is_playing
    · rw [get_next_audio_chunk_idle s n (Or.inl hp)]
      simp [hp]
    · by_cases hlen : d.length ≤ s.current_sound_pos
      · rw [get_next_audio_chunk_finished s n d hp hd hlen]
        simp [hp, hd, hlen]
      · push_neg at hlen
        rw [get_next_audio_chunk_run s n d hp hd hlen]
        constructor
        · simp [hp, hd]
          omega
        · intro c hc
          simp at hc
          rw [← hc]
          exact paddedChunk_length d _ n hlen

/-- C3 witness: the contract instantiated at a playing state with a
2-frame buffer and block size 4. -/
theorem C3_witness :
    ((get_next_audio_chunk (exState [5, 6] 0) 4).1 = none ↔
      (exState [5, 6] 0).is_playing = false ∨
        (exState [5, 6] 0).current_sound_data = none ∨
        ∃ d, (exState [5, 6] 0).current_sound_data = some d ∧
          d.length ≤ (exState [5, 6] 0).current_sound_pos) ∧
    ∀ c, (get_next_audio_chunk (exState [5, 6] 0) 4).1 = some c → c.length = 4 :=
  C3_theorem (exState [5, 6] 0) 4

end Soundboard

namespace Soundboard

/-- C4: every sample produced by the mixing step lies in the signed
16-bit range. Whatever the active instance, its buffer contents (any
`Int` values, covering sums of several full-scale sources) and the
volume, the mixed branch clips to [-32768, 32767] before the int16
cast, and the pass-through branches return the input block, whose
samples are int16 by hypothesis. -/
theorem C4_theorem (gv : Option String → Option ℚ) (s : PlayerState) (input : List Int)
    (h : ∀ x ∈ input, -32768 ≤ x ∧ x ≤ 32767) :
    ∀ y ∈ (mix_audio_with_sounds gv s input).1, -32768 ≤ y ∧ y ≤ 32767 := by
  intro y hy
  by_cases hidle : s.is_playing = false ∨ s.current_sound_data = none
  · rw [mix_audio_with_sounds_idle gv s input hidle] at hy
    exact h y hy
  · push_neg at hidle
    obtain ⟨hp', hd'⟩ := hidle
    have hp : s.is_playing = true := by
      cases hb : s.is_playing
      · exact absurd hb hp'
      · rfl
    obtain ⟨d, hd⟩ : ∃ d, s.current_sound_data = some d := by
      cases hdc : s.current_sound_data
      · exact absurd hdc hd'
      · exact ⟨_, rfl⟩
    by_cases hdone : d.length ≤ s.current_sound_pos
    · rw [mix_audio_with_sounds_finished gv s input d hp hd hdone] at hy
      exact h y hy
    · push_neg at hdone
      rcases hv : gv s.current_sound with _ | v
      · rw [mix_audio_with_sounds_lookup_failed gv s input d hp hd hdone hv] at hy
        exact h y hy
      · rw [mix_audio_with_sounds_run gv s input d v hp hd hdone hv] at hy
        obtain ⟨a, b, rfl⟩ := mixBlock_mem hy
        exact mixSample_range v a b

/-- C4 witness: two full-scale input samples mixed against a full-scale
clip at volume percentage 80 stay within the int16 range. -/
theorem C4_witness :
    (exState [32767, 32767] 0).is_playing = true ∧
    ∀ y ∈ (mix_audio_with_sounds (fun _ => some 80)
        (exState [32767, 32767] 0) [32767, 32767]).1,
      -32768 ≤ y ∧ y ≤ 32767 :=
  ⟨rfl, C4_theorem (fun _ => some 80) (exState [32767, 32767] 0)
    [32767, 32767] (by decide)⟩

/-- C5 amended: an instance with fewer than N frames remaining has its
contribution zero-padded to N frames and its cursor set to the buffer
end; the instance stays in the state after that call and is removed at
the start of the next `get_next_audio_chunk` call, which returns no
contribution and resets the state, so no later call ever includes its
frames. -/
theorem C5_theorem (s : PlayerState) (n : Nat) (d : List Int)
    (hp : s.is_playing = true) (hd : s.current_sound_data = some d)
    (hlt : s.current_sound_pos < d.length) (hrem : d.length - s.current_sound_pos < n) :
    (get_next_audio_chunk s n).1 =
      some (d.drop s.current_sound_pos ++
        List.replicate (n - (d.length - s.current_sound_pos)) 0) ∧
    (get_next_audio_chunk s n).2.current_sound_pos = d.length ∧
    get_next_audio_chunk (get_next_audio_chunk s n).2 n = (none, initState) ∧
    ∀ k, consumeIter n (get_next_audio_chunk s n).2 (k + 1) = initState ∧
      (get_next_audio_chunk (consumeIter n (get_next_audio_chunk s n).2 (k + 1)) n).1
        = none := by
  have hrun := get_next_audio_chunk_run s n d hp hd hlt
  have hmin : min (s.current_sound_pos + n) d.length = d.length := by omega
  have hpad := paddedChunk_pad d s.current_sound_pos n hlt hrem
  have hnext :
      get_next_audio_chunk (get_next_audio_chunk s n).2 n = (none, initState) := by
    rw [hrun]
    exact get_next_audio_chunk_finished _ n d hp hd (by simp [hmin])
  refine ⟨?_, ?_, hnext, ?_⟩
  · rw [hrun]
    simp [hpad]
  · rw [hrun]
    simp [hmin]
  · intro k
    have hiter : consumeIter n (get_next_audio_chunk s n).2 (k + 1) = initState := by
      show consumeIter n (get_next_audio_chunk (get_next_audio_chunk s n).2 n).2 k
        = initState
      rw [hnext]
      exact consumeIter_initState n k
    refine ⟨hiter, ?_⟩
    rw [hiter, get_next_audio_chunk_initState]

/-- C5 witness: the lazy-removal theorem instantiated at a 1-frame
buffer consumed with block size 2. -/
theorem C5_witness :
    (get_next_audio_chunk (exState [7] 0) 2).1 =
      some ([7].drop (exState [7] 0).current_sound_pos ++
        List.replicate (2 - ([7].length - (exState [7] 0).current_sound_pos)) 0) ∧
    (get_next_audio_chunk (exState [7] 0) 2).2.current_sound_pos = [7].length ∧
    get_next_audio_chunk (get_next_audio_chunk (exState [7] 0) 2).2 2 =
      (none, initState) ∧
    ∀ k, consumeIter 2 (get_next_audio_chunk (exState [7] 0) 2).2 (k + 1) = initState ∧
      (get_next_audio_chunk
        (consumeIter 2 (get_next_audio_chunk (exState [7] 0) 2).2 (k + 1)) 2).1 = none :=
  C5_theorem (exState [7] 0) 2 [7] rfl rfl (by decide) (by decide)

/-- C6: after `stop_playback` returns, nothing is playing, the current
sound and buffer are cleared, and every later `get_next_audio_chunk`
call returns no contribution and leaves the state fixed, so no
pre-stop instance is ever advanced again. The hypothesis is the
reachability invariant that a non-playing state carries no stale sound
fields (true of every state the player code produces). -/
theorem C6_theorem (s : PlayerState) (n : Nat)
    (hinv : s.is_playing = false → s.current_sound = none ∧ s.current_sound_data = none) :
    (stop_playback s).is_playing = false ∧
    (stop_playback s).current_sound = none ∧
    (stop_playback s).current_sound_data = none ∧
    get_next_audio_chunk (stop_playback s) n = (none, stop_playback s) ∧
    ∀ k, consumeIter n (stop_playback s) k = stop_playback s := by
  cases hp : s.is_playing
  · have hs : stop_playback s = s := by simp [stop_playback, hp]
    obtain ⟨h1, h2⟩ := hinv hp
    have hchunk : get_next_audio_chunk s n = (none, s) :=
      get_next_audio_chunk_idle s n (Or.inl hp)
    rw [hs]
    exact ⟨hp, h1, h2, hchunk, consumeIter_fixed n s (by rw [hchunk])⟩
  · have hs : stop_playback s = initState := by
      simp [stop_playback, hp, cleanup_playback]
    rw [hs]
    exact ⟨rfl, rfl, rfl, get_next_audio_chunk_initState n,
      consumeIter_fixed n initState (by rw [get_next_audio_chunk_initState])⟩

/-- C6 witness: stopping a playing state with a 3-frame buffer at
cursor 1, block size 4. -/
theorem C6_witness :
    (stop_playback (exState [1, 2, 3] 1)).is_playing = false ∧
    (stop_playback (exState [1, 2, 3] 1)).current_sound = none ∧
    (stop_playback (exState [1, 2, 3] 1)).current_sound_data = none ∧
    get_next_audio_chunk (stop_playback (exState [1, 2, 3] 1)) 4 =
      (none, stop_playback (exState [1, 2, 3] 1)) ∧
    ∀ k, consumeIter 4 (stop_playback (exState [1, 2, 3] 1)) k =
      stop_playback (exState [1, 2, 3] 1) :=
  C6_theorem (exState [1, 2, 3] 1) 4 (by decide)

end Soundboard

namespace Soundboard

/-- C7 counterexample: with per-sound volume 10 the mixed output of
input sample 0 against clip sample 10000 is 3000 (the code gain is
3 times 10/100 = 0.3), while any clip gain above unity would give a
clipped value of at least 10000, never 3000 — so the claimed
above-unity clip gain does not describe the code on this block
(whatever input gain, since the input sample is 0). -/
theorem C7_counterexample :
    (mix_audio_with_sounds (fun o => if o = some "A" then some 10 else none)
        (startPlayback initState "A" [10000]) [0]).1 = [3000] ∧
    ¬ ∃ g : ℚ, 1 < g ∧ clip (g * 10000) = 3000 := by
  constructor
  · norm_num [mix_audio_with_sounds, startPlayback, initState, paddedChunk, mixBlock,
      mixSample, toInt16Trunc, clip, input_gain, soundboard_gain]
    split
    · simp_all
    · rfl
  · rintro ⟨g, hg, hclip⟩
    have h1 : (10000 : ℚ) < g * 10000 := by nlinarith
    have h2 : (10000 : ℚ) ≤ min (g * 10000) 32767 := le_min (le_of_lt h1) (by norm_num)
    have h3 : (10000 : ℚ) ≤ clip (g * 10000) := le_trans h2 (le_max_right _ _)
    rw [hclip] at h3
    norm_num at h3

/-- C7 amended: while a clip with frames remaining is playing and its
volume resolves, each output sample is the int16 truncation of
`clip(0.6 * input[i] + (3 * volume/100) * mix[i])`; the input gain 0.6
is below unity, and the clip gain `3 * volume/100` is above unity
exactly when the per-sound volume percentage exceeds 100/3. -/
theorem C7_theorem (gv : Option String → Option ℚ) (s : PlayerState)
    (input d : List Int) (v : ℚ)
    (hp : s.is_playing = true) (hd : s.current_sound_data = some d)
    (hlt : s.current_sound_pos < d.length) (hv : gv s.current_sound = some v) :
    (mix_audio_with_sounds gv s input).1 =
      List.zipWith
        (fun (x y : Int) => toInt16Trunc (clip (input_gain * x + soundboard_gain v * y)))
        input (paddedChunk d s.current_sound_pos input.length) ∧
    input_gain < 1 ∧ (1 < soundboard_gain v ↔ 100 / 3 < v) := by
  refine ⟨?_, by norm_num [input_gain], ?_⟩
  · rw [mix_audio_with_sounds_run gv s input d v hp hd hlt hv]
    rfl
  · unfold soundboard_gain
    constructor <;> intro <;> nlinarith

/-- C7 witness: the mixing formula instantiated at volume percentage 80,
a 3-frame clip at cursor 0 and a 2-frame input block. -/
theorem C7_witness :
    (mix_audio_with_sounds (fun _ => some 80)
        (exState [100, 200, 300] 0) [10, -10]).1 =
      List.zipWith
        (fun (x y : Int) =>
          toInt16Trunc (clip (input_gain * x + soundboard_gain 80 * y)))
        [10, -10]
        (paddedChunk [100, 200, 300] (exState [100, 200, 300] 0).current_sound_pos
          (List.length [10, -10])) ∧
    input_gain < 1 ∧ (1 < soundboard_gain 80 ↔ 100 / 3 < (80 : ℚ)) :=
  C7_theorem (fun _ => some 80) (exState [100, 200, 300] 0) [10, -10]
    [100, 200, 300] 80 rfl rfl (by decide) rfl

/-- C8 amended: a trigger for a name with no catalog entry, no path, an
empty path or a missing file spawns no playback and raises nothing; if
nothing was playing the state is fully unchanged (isPlaying stays
false), but an in-flight instance is stopped by the pre-trigger stop
(see the counterexample), so "active set unchanged" holds only for the
initially idle case. -/
theorem C8_theorem (gs : String → Option SoundEntry) (fe : String → Bool)
    (s : PlayerState) (name : String)
    (h : gs name = none ∨ ∃ e, gs name = some e ∧
        (e.path = none ∨ ∃ p, e.path = some p ∧ (p = "" ∨ fe p = false))) :
    (play_sound gs fe s name).2 = false ∧
    (s.is_playing = false → play_sound gs fe s name = (s, false)) := by
  rcases h with hnone | ⟨e, he, hpath⟩
  · constructor
    · simp [play_sound, hnone]
    · intro hp
      simp [play_sound, hnone, hp]
  · rcases hpath with hpn | ⟨p, hpe, hor⟩
    · constructor
      · simp [play_sound, he, hpn]
      · intro hp
        simp [play_sound, he, hpn, hp]
    · constructor
      · simp only [play_sound, he, hpe]
        rw [if_pos hor]
      · intro hp
        simp only [play_sound, he, hpe, hp]
        rw [if_pos hor]
        simp

/-- C8 witness: triggering an uncatalogued name on the idle initial
state changes nothing and spawns nothing. -/
theorem C8_witness :
    (play_sound (fun _ => none) (fun _ => false) initState "missing").2 = false ∧
    (initState.is_playing = false →
      play_sound (fun _ => none) (fun _ => false) initState "missing" =
        (initState, false)) :=
  C8_theorem (fun _ => none) (fun _ => false) initState "missing" (Or.inl rfl)

/-- C9: in one consumption step the cursor never ends past the buffer
length, and in the playing case it advances by exactly
`min N (remaining)` — the number of frames copied — which never
exceeds the remaining length. -/
theorem C9_theorem (s : PlayerState) (n : Nat) (d : List Int)
    (hd : s.current_sound_data = some d) (hle : s.current_sound_pos ≤ d.length) :
    (∀ d2, (get_next_audio_chunk s n).2.current_sound_data = some d2 →
      (get_next_audio_chunk s n).2.current_sound_pos ≤ d2.length) ∧
    (s.is_playing = true → s.current_sound_pos < d.length →
      (get_next_audio_chunk s n).2.current_sound_pos =
        s.current_sound_pos + min n (d.length - s.current_sound_pos) ∧
      min n (d.length - s.current_sound_pos) ≤ d.length - s.current_sound_pos) := by
  cases hp : s.is_playing
  · rw [get_next_audio_chunk_idle s n (Or.inl hp)]
    constructor
    · intro d2 h2
      rw [hd] at h2
      injection h2 with h2
      rw [← h2]
      exact hle
    · intro hpt
      exact absurd hpt (by simp)
  · by_cases hdone : d.length ≤ s.current_sound_pos
    · rw [get_next_audio_chunk_finished s n d hp hd hdone]
      constructor
      · intro d2 h2
        exact absurd h2 (by simp [initState])
      · intro _ hlt
        omega
    · push_neg at hdone
      rw [get_next_audio_chunk_run s n d hp hd hdone]
      constructor
      · intro d2 h2
        simp only [hd] at h2
        injection h2 with h2
        rw [← h2]
        simp
      · intro _ _
        constructor
        · show min (s.current_sound_pos + n) d.length =
            s.current_sound_pos + min n (d.length - s.current_sound_pos)
          omega
        · omega

/-- C9 witness: cursor arithmetic at a 3-frame buffer, cursor 1, block
size 5: the cursor advances by the 2 copied frames to the buffer end. -/
theorem C9_witness :
    (∀ d2, (get_next_audio_chunk (exState [1, 2, 3] 1) 5).2.current_sound_data = some d2 →
      (get_next_audio_chunk (exState [1, 2, 3] 1) 5).2.current_sound_pos ≤ d2.length) ∧
    ((exState [1, 2, 3] 1).is_playing = true →
      (exState [1, 2, 3] 1).current_sound_pos < [1, 2, 3].length →
      (get_next_audio_chunk (exState [1, 2, 3] 1) 5).2.current_sound_pos =
        (exState [1, 2, 3] 1).current_sound_pos +
          min 5 ([1, 2, 3].length - (exState [1, 2, 3] 1).current_sound_pos) ∧
      min 5 ([1, 2, 3].length - (exState [1, 2, 3] 1).current_sound_pos) ≤
        [1, 2, 3].length - (exState [1, 2, 3] 1).current_sound_pos) :=
  C9_theorem (exState [1, 2, 3] 1) 5 [1, 2, 3] rfl (by decide)

/-- C10: the mixing step is a total function (no exception escapes to
the routing loop); it returns the input block unchanged whenever
nothing is playing or no buffer is loaded, whenever the loaded buffer
is already fully consumed, and whenever the volume lookup fails (the
modelled AttributeError path) — in all these cases no input gain is
applied. -/
theorem C10_theorem (gv : Option String → Option ℚ) (s : PlayerState)
    (input : List Int) :
    (s.is_playing = false ∨ s.current_sound_data = none →
      mix_audio_with_sounds gv s input = (input, s)) ∧
    (∀ d, s.current_sound_data = some d → d.length ≤ s.current_sound_pos →
      (mix_audio_with_sounds gv s input).1 = input) ∧
    (gv s.current_sound = none → (mix_audio_with_sounds gv s input).1 = input) := by
  refine ⟨mix_audio_with_sounds_idle gv s input, ?_, ?_⟩
  · intro d hd hdone
    cases hp : s.is_playing
    · rw [mix_audio_with_sounds_idle gv s input (Or.inl hp)]
    · rw [mix_audio_with_sounds_finished gv s input d hp hd hdone]
  · intro hv
    by_cases hidle : s.is_playing = false ∨ s.current_sound_data = none
    · rw [mix_audio_with_sounds_idle gv s input hidle]
    · push_neg at hidle
      obtain ⟨hp', hd'⟩ := hidle
      have hp : s.is_playing = true := by
        cases hb : s.is_playing
        · exact absurd hb hp'
        · rfl
      obtain ⟨d, hd⟩ : ∃ d, s.current_sound_data = some d := by
        cases hdc : s.current_sound_data
        · exact absurd hdc hd'
        · exact ⟨_, rfl⟩
      by_cases hdone : d.length ≤ s.current_sound_pos
      · rw [mix_audio_with_sounds_finished gv s input d hp hd hdone]
      · push_neg at hdone
        rw [mix_audio_with_sounds_lookup_failed gv s input d hp hd hdone hv]

/-- C10 witness: pass-through at a playing state whose volume lookup
fails, and at the idle initial state. -/
theorem C10_witness :
    ((exState [1, 2] 0).is_playing = false ∨
        (exState [1, 2] 0).current_sound_data = none →
      mix_audio_with_sounds (fun _ => none) (exState [1, 2] 0) [9, 9] =
        ([9, 9], exState [1, 2] 0)) ∧
    (∀ d, (exState [1, 2] 0).current_sound_data = some d →
      d.length ≤ (exState [1, 2] 0).current_sound_pos →
      (mix_audio_with_sounds (fun _ => none) (exState [1, 2] 0) [9, 9]).1 = [9, 9]) ∧
    ((fun (_ : Option String) => (none : Option ℚ)) (exState [1, 2] 0).current_sound
        = none →
      (mix_audio_with_sounds (fun _ => none) (exState [1, 2] 0) [9, 9]).1 = [9, 9]) :=
  C10_theorem (fun _ => none) (exState [1, 2] 0) [9, 9]

end Soundboard
